import Mathlib

/-!
Verification development for the multi-platform automation engine
(`lead_scraper.py` and `social_media_automation.py`).

The Python code is shallowly embedded: a Python `dict` with string keys
becomes an association list in insertion order (`Dict`), Python values that
occur in the code become `PyVal`, and each I/O-performing operation becomes a
pure function over an explicit environment record that supplies the outcomes
of the external interactions (navigation success, located DOM containers,
HTTP response codes and bodies, current timestamp).  Where an operation's
observable behaviour includes which page navigations were attempted, the
function additionally returns a trace of `Effect`s.
-/

set_option maxRecDepth 16384

/-- Python runtime values that appear in the embedded code: strings, ints,
booleans, `None`, and lists of strings (used for Medium tags). -/
inductive PyVal where
  | str : String → PyVal
  | intV : Nat → PyVal
  | boolV : Bool → PyVal
  | noneV : PyVal
  | listV : List String → PyVal
deriving DecidableEq, Repr

/-- A single apostrophe character, for building string literals. -/
def apos : String := String.singleton (Char.ofNat 39)

/-- Python `str(v)`: the rendering Python applies when a value is formatted
or joined into text. -/
def pyStr : PyVal → String
  | .str s => s
  | .intV n => toString n
  | .boolV b => if b then "True" else "False"
  | .noneV => "None"
  | .listV l =>
      "[" ++ String.intercalate ", " (l.map (fun s => apos ++ s ++ apos)) ++ "]"

/-- A Python `dict` with string keys, kept in insertion order. -/
abbrev Dict := List (String × PyVal)

/-- Python `d.get(k)` / `d[k]` lookup: the value stored at the first
occurrence of the key, if any. -/
def dget (l : Dict) (k : String) : Option PyVal :=
  (l.find? (fun kv => kv.1 = k)).map (fun kv => kv.2)

/-- Python `d[k] = v`: replace the value at an existing key in place,
otherwise append the new key at the end (insertion-order semantics). -/
def dictSet (l : Dict) (k : String) (v : PyVal) : Dict :=
  match l with
  | [] => [(k, v)]
  | (k', v') :: rest =>
      if k' = k then (k, v) :: rest else (k', v') :: dictSet rest k v

/-- Python truthiness of an optional string (e.g. `os.getenv` result):
true exactly when the value is present and non-empty. -/
def credOk : Option String → Bool
  | some s => s ≠ ""
  | none => false

/-- Lift an optional string to a `PyVal` the way Python stores it in a dict
(`None` when absent). -/
def optVal : Option String → PyVal
  | some s => PyVal.str s
  | none => PyVal.noneV

/-- Python `str.lower()` (ASCII case folding, as in the scraped text). -/
def pyLower (s : String) : String :=
  String.mk (s.toList.map Char.toLower)

/-- Python `s.split(c)` for a one-character separator: the segments between
occurrences of `c`, with empty segments preserved. -/
def splitOnChar (c : Char) : List Char → List (List Char)
  | [] => [[]]
  | x :: xs =>
      let r := splitOnChar c xs
      if x == c then [] :: r
      else
        match r with
        | [] => [[x]]
        | h :: t => (x :: h) :: t

/-- Python `str.strip()`: drop leading and trailing whitespace (the
whitespace characters that occur in scraped text are the ASCII ones
covered by `Char.isWhitespace`). -/
def pyStrip (s : String) : String :=
  String.mk (((s.toList.dropWhile Char.isWhitespace).reverse.dropWhile
    Char.isWhitespace).reverse)

/-- Python substring test `needle in hay` on character lists. -/
def containsSub (hay needle : List Char) : Bool :=
  match hay with
  | [] => needle.isEmpty
  | _ :: t => needle.isPrefixOf hay || containsSub t needle

/-! ### Generic stable insertion sort

Python's `list.sort` is documented as a stable sort; `sort(key=f, reverse=True)`
therefore produces the unique ordering that is descending in the key and keeps
elements with equal keys in their original relative order.  `insSort` below
realises exactly that ordering when instantiated with the appropriate
boolean comparison. -/

/-- Insert `x` into `l`, placing it before the first element `y` with
`le x y`. -/
def insertOrd (le : α → α → Bool) (x : α) : List α → List α
  | [] => [x]
  | y :: ys => if le x y then x :: y :: ys else y :: insertOrd le x ys

/-- Insertion sort with boolean comparison `le`; stable when `le` holds on
ties. -/
def insSort (le : α → α → Bool) : List α → List α
  | [] => []
  | x :: xs => insertOrd le x (insSort le xs)

/-! ### Lead scraper (`lead_scraper.py`)

Each scraping operation drives a browser page.  The environment records the
data the external world would supply: whether the navigation/login steps of
the run succeed (a `false` flag models a raised Playwright exception at that
phase, which the source catches with its outermost `except Exception`), the
record containers found in the DOM, and the current timestamp
(`datetime.now().isoformat()`).  A per-field `Except Unit String` models an
`inner_text`/`get_attribute` call that either returns text or raises. -/

/-- Observable page effect: a `page.goto(url)` navigation attempt. -/
inductive Effect where
  | navigate : String → Effect
deriving DecidableEq, Repr

/-- One `.entity-result` container on the LinkedIn search page, as seen by the
per-profile field extractor.  `Except.error ()` models a locator call that
raises. -/
structure LIProfile where
  name : Except Unit String
  headline : Except Unit String
  location : Except Unit String
  profileUrl : Except Unit (Option String)
deriving Repr

/-- Environment of one `scrape_linkedin_leads` run. -/
structure LIEnv where
  email : Option String
  password : Option String
  loginOk : Bool
  searchOk : Bool
  profiles : List LIProfile
  now : String

/-- Field extraction for one LinkedIn profile container (the body of the inner
`try` in `scrape_linkedin_leads`): `none` when any locator raises, in which
case the container is skipped. -/
def extractProfile (now : String) (p : LIProfile) : Option Dict :=
  match p.name, p.headline, p.location, p.profileUrl with
  | .ok name, .ok headline, .ok location, .ok profile_url =>
      some [("name", .str (pyStrip name)), ("headline", .str (pyStrip headline)),
            ("location", .str (pyStrip location)), ("profile_url", optVal profile_url),
            ("platform", .str "linkedin"), ("found_date", .str now)]
  | _, _, _, _ => none

/-- Embedding of `LeadScraper.scrape_linkedin_leads`.  Returns the trace of
attempted navigations and the outcome.  The whole body is wrapped in
`try ... except Exception`, so the translation never produces
`Except.error`; the `Except` result type records that the Python function
could in principle raise to its caller. -/
def scrape_linkedin_leads (env : LIEnv) (search_query : String)
    (max_results : Nat) : List Effect × Except Unit (List Dict) :=
  if credOk env.email && credOk env.password then
    let t1 := [Effect.navigate "https://www.linkedin.com/login"]
    if env.loginOk then
      let t2 := t1 ++ [Effect.navigate
        ("https://www.linkedin.com/search/results/people/?keywords=" ++ search_query)]
      if env.searchOk then
        (t2, .ok ((env.profiles.take max_results).filterMap (extractProfile env.now)))
      else
        (t2, .ok [])
    else
      (t1, .ok [])
  else
    ([], .ok [])

/-- One `[data-testid="tweet"]` container on the Twitter search page. -/
structure Tweet where
  userName : Except Unit String
  text : Except Unit String
deriving Repr

/-- Environment of one `scrape_twitter_leads` run. -/
structure TWEnv where
  navOk : Bool
  tweets : List Tweet
  now : String

/-- Field extraction for one tweet container (the body of the inner `try` in
`scrape_twitter_leads`). -/
def extractTweet (hashtag now : String) (tw : Tweet) : Option Dict :=
  match tw.userName, tw.text with
  | .ok username, .ok text =>
      let parts := (splitOnChar '\n' username.toList).map String.mk
      let handle_match :=
        if username.toList.contains '\n' then parts.getD 1 "" else ""
      let name :=
        if username.toList.contains '\n' then parts.headD "" else username
      some [("name", .str name), ("handle", .str handle_match),
            ("tweet_text", .str (String.mk ((pyStrip text).toList.take 200))),
            ("platform", .str "twitter"), ("hashtag", .str hashtag),
            ("found_date", .str now)]
  | _, _ => none

/-- Embedding of `LeadScraper.scrape_twitter_leads` (no credential gate;
single navigation to the live-search URL). -/
def scrape_twitter_leads (env : TWEnv) (hashtag : String)
    (max_results : Nat) : Except Unit (List Dict) :=
  if env.navOk then
    .ok ((env.tweets.take max_results).filterMap (extractTweet hashtag env.now))
  else
    .ok []

/-! ### Lead aggregator: keyword filtering and scoring -/

/-- The `lead_text` of `filter_quality_leads`:
`' '.join(str(v).lower() for v in lead.values())`. -/
def leadText (l : Dict) : String :=
  String.intercalate " " (l.map (fun kv => pyLower (pyStr kv.2)))

/-- One keyword test: `keyword.lower() in lead_text`. -/
def kwHit (l : Dict) (keyword : String) : Bool :=
  containsSub (leadText l).toList (pyLower keyword).toList

/-- The filter condition: `any(keyword.lower() in lead_text for keyword in keywords)`. -/
def matchesAny (keywords : List String) (l : Dict) : Bool :=
  keywords.any (kwHit l)

/-- The assigned score: `sum(keyword.lower() in lead_text for keyword in keywords)`,
i.e. the number of entries of the keyword list that match, counted with
multiplicity. -/
def matchCount (keywords : List String) (l : Dict) : Nat :=
  keywords.countP (kwHit l)

/-- `lead['match_score'] = sum(...)`: the in-place dict mutation performed on a
matching lead. -/
def setScore (keywords : List String) (l : Dict) : Dict :=
  dictSet l "match_score" (.intV (matchCount keywords l))

/-- One pass of the `for lead in self.leads` loop body: the (possibly mutated)
stored lead together with whether it was appended to `quality_leads`. -/
def processLead (keywords : List String) (l : Dict) : Dict × Bool :=
  if matchesAny keywords l then (setScore keywords l, true) else (l, false)

/-- The sort key `x.get('match_score', 0)`. -/
def scoreOf (l : Dict) : Nat :=
  match dget l "match_score" with
  | some (.intV n) => n
  | _ => 0

/-- `quality_leads.sort(key=lambda x: x.get('match_score', 0), reverse=True)`:
Python's stable sort, descending in the key, ties kept in list order. -/
def sortDescByScore : List Dict → List Dict :=
  insSort (fun a b => decide (scoreOf b ≤ scoreOf a))

/-- Embedding of `LeadScraper.filter_quality_leads`.  The first component is
the stored `self.leads` list after the pass (the loop mutates matching leads
in place); the second is the returned `quality_leads` list. -/
def filter_quality_leads (leads : List Dict) (keywords : List String) :
    List Dict × List Dict :=
  let processed := leads.map (processLead keywords)
  (processed.map (fun q => q.1),
   sortDescByScore ((processed.filter (fun q => q.2)).map (fun q => q.1)))

/-! ### Lead aggregator: CSV persistence -/

/-- Lexicographic order on character lists by code point. -/
def lexLe : List Char → List Char → Bool
  | [], _ => true
  | _ :: _, [] => false
  | a :: as, b :: bs =>
      if a.toNat < b.toNat then true
      else if b.toNat < a.toNat then false
      else lexLe as bs

/-- String comparison used by Python's `sorted` on `str`: lexicographic by
code point. -/
def strLeB (a b : String) : Bool := lexLe a.toList b.toList

/-- `sorted(fieldnames)` for a set of strings. -/
def sortStrings : List String → List String := insSort strLeB

/-- Rendering of one CSV cell: `csv.DictWriter` writes a missing key (restval
`None`) and a stored `None` as the empty string, and `str(...)` otherwise. -/
def csvCell : Option PyVal → String
  | some PyVal.noneV => ""
  | some v => pyStr v
  | none => ""

/-- Embedding of `LeadScraper.save_leads_to_csv`: `none` when there are no
leads (early return), otherwise the header row (the sorted union of all keys
seen across the batch) and one row per lead. -/
def save_leads_to_csv (leads : List Dict) :
    Option (List String × List (List String)) :=
  if leads.isEmpty then none
  else
    let fieldnames :=
      sortStrings (List.dedup (leads.flatMap (fun l => l.map (fun kv => kv.1))))
    some (fieldnames,
          leads.map (fun l => fieldnames.map (fun k => csvCell (dget l k))))

/-! ### Outreach template engine (`generate_outreach_message`)

The four templates are plain text with the placeholder tokens `{name}`,
`{headline}`, `{handle}` and `{topic}`; `str.format` substitutes all of them
simultaneously.  A template is embedded as the alternating list of its
literal segments and placeholder items; the `*_raw` theorems below state that
joining the items, printing a placeholder item as its `{...}` token, yields
exactly the source template text. -/

/-- One segment of a template: a literal piece of text or one of the four
placeholder tokens the source formats. -/
inductive TItem where
  | lit : String → TItem
  | nameP : TItem
  | headlineP : TItem
  | handleP : TItem
  | topicP : TItem
deriving DecidableEq, Repr

/-- Print a template item back as raw template text. -/
def tItemRaw : TItem → String
  | .lit s => s
  | .nameP => "{name}"
  | .headlineP => "{headline}"
  | .handleP => "{handle}"
  | .topicP => "{topic}"

/-- The `'default'` template of `generate_outreach_message`. -/
def default_template : List TItem :=
  [.lit "Hi ", .nameP,
   .lit ",\n\nI noticed your profile and thought you might be interested in our AI chatbot services. \n\nWe help businesses like yours:\n- Automate customer support 24/7\n- Increase response time by 90%\n- Reduce support costs by 60%\n\nWould you be open to a quick 15-minute call to see how we can help your business?\n\nBest regards,\nYour Name"]

/-- The `'linkedin'` template. -/
def linkedin_template : List TItem :=
  [.lit "Hi ", .nameP,
   .lit ",\n\nI came across your profile and was impressed by your role as ",
   .headlineP,
   .lit ".\n\nI specialize in building AI-powered chatbots that help businesses automate customer service and lead generation. Given your experience in ",
   .headlineP,
   .lit ", I thought this might be valuable for you or your network.\n\nWould you be interested in learning more?\n\nBest,\nYour Name"]

/-- The `'twitter'` template. -/
def twitter_template : List TItem :=
  [.lit "Hi ", .handleP,
   .lit ",\n\nSaw your tweet about ", .topicP,
   .lit (". We" ++ apos ++ "ve helped similar businesses automate their customer service with AI chatbots.\n\nWould love to show you how it works. DM me if interested! 🤖")]

/-- The `'cold_email'` template. -/
def cold_email_template : List TItem :=
  [.lit "Subject: Automate Your Customer Service with AI\n\nHi ", .nameP,
   .lit (",\n\nI help businesses automate repetitive customer inquiries using AI chatbots. Here" ++ apos ++ "s what we can do for you:\n\n✅ 24/7 instant responses\n✅ Handle 1000+ conversations simultaneously  \n✅ Integrate with WhatsApp, Facebook, Instagram\n✅ Reduce support costs by 60%\n\nInterested in a free demo?\n\nReply if you" ++ apos ++ "d like to see it in action!\n\nBest regards,\nYour Name\n")]

/-- `templates.get(template, templates['default'])`: template selection with
fallback to the default template on an unknown name. -/
def templatesGet (template : String) : List TItem :=
  if template = "default" then default_template
  else if template = "linkedin" then linkedin_template
  else if template = "twitter" then twitter_template
  else if template = "cold_email" then cold_email_template
  else default_template

/-- `lead.get(k, d)` followed by `str.format`'s stringification of the value. -/
def getStrD (l : Dict) (k d : String) : String :=
  match dget l k with
  | some v => pyStr v
  | none => d

/-- Substitute one template item given the four computed argument strings. -/
def tSubst (name headline handle topic : String) : TItem → String
  | .lit s => s
  | .nameP => name
  | .headlineP => headline
  | .handleP => handle
  | .topicP => topic

/-- Embedding of `LeadScraper.generate_outreach_message`. -/
def generate_outreach_message (lead : Dict) (template : String) : String :=
  let name := getStrD lead "name" "there"
  let headline := getStrD lead "headline" "your field"
  let handle := getStrD lead "handle" (getStrD lead "name" "there")
  let topic := getStrD lead "hashtag" "business automation"
  String.join ((templatesGet template).map (tSubst name headline handle topic))

/-- Character `{` (written by code point to keep it out of the source text). -/
def lbrace : Char := Char.ofNat 123

/-- Character `}` (written by code point). -/
def rbrace : Char := Char.ofNat 125

/-- A string containing no brace character, hence no placeholder token. -/
def braceFree (s : String) : Bool :=
  s.data.all (fun c => !(c == lbrace) && !(c == rbrace))

/-- All literal segments of a template are brace-free. -/
def litsBraceFree (t : List TItem) : Bool :=
  t.all (fun i => match i with | .lit s => braceFree s | _ => true)

/-! ### Social media automation (`social_media_automation.py`)

One environment record carries the credentials read at construction time
(`os.getenv` in `__init__`) and, for each adapter, the outcome of its
external interactions: for the Graph-API adapters the HTTP status codes,
parsed response data and error bodies (an `Except.error e` models a raised
`requests` exception with message `e`, caught by the adapter's
`except Exception`); for the browser adapters a success flag per phase plus
the stringified exception message used when a step raises.  JSON error
bodies returned by the remote API are modelled as opaque `PyVal`s supplied
by the environment. -/

/-- Environment of the `SocialMediaAutomation` instance and of one
`post_to_all_platforms` run. -/
structure SMAEnv where
  metaToken : Option String
  linkedinEmail : Option String
  linkedinPassword : Option String
  twitterEmail : Option String
  twitterPassword : Option String
  fbAccounts : Except String (Nat × List (String × String))
  fbPost : Except String (Nat × Option String)
  fbPostErrBody : PyVal
  igAccounts : Except String (List (Option String))
  igContainer : Except String (Nat × Option String)
  igContainerErrBody : PyVal
  igPublish : Except String (Nat × Option String)
  igPublishErrBody : PyVal
  liLoginOk : Bool
  liComposeOk : Bool
  liErr : String
  twUiOk : Bool
  twErr : String
  mdUiOk : Bool
  mdErr : String
  now : String

/-- The failure dict `{'success': False, 'error': e}` every adapter returns
on an error path. -/
def failDict (e : PyVal) : Dict :=
  [("success", .boolV false), ("error", e)]

/-- Embedding of `SocialMediaAutomation.post_to_facebook` (Meta Graph API). -/
def post_to_facebook (env : SMAEnv) (_message : String)
    (_image_url : Option String) : Dict :=
  if !credOk env.metaToken then failDict (.str "META_ACCESS_TOKEN not set")
  else
    match env.fbAccounts with
    | .error e => failDict (.str e)
    | .ok (status, pages) =>
        if status ≠ 200 then failDict (.str "Failed to get page access")
        else
          match pages with
          | [] => failDict (.str "No pages found")
          | (_page_id, _page_token) :: _ =>
              match env.fbPost with
              | .error e => failDict (.str e)
              | .ok (pstatus, post_id) =>
                  if pstatus = 200 then
                    [("success", .boolV true), ("platform", .str "facebook"),
                     ("post_id", optVal post_id),
                     ("url", .str ("https://facebook.com/" ++ pyStr (optVal post_id)))]
                  else
                    failDict env.fbPostErrBody

/-- Embedding of `SocialMediaAutomation.post_to_instagram` (Meta Graph API):
the first page carrying an `instagram_business_account` is used. -/
def post_to_instagram (env : SMAEnv) (_image_url _caption : String) : Dict :=
  if !credOk env.metaToken then failDict (.str "META_ACCESS_TOKEN not set")
  else
    match env.igAccounts with
    | .error e => failDict (.str e)
    | .ok pages =>
        match (pages.filterMap id).head? with
        | none => failDict (.str "No Instagram business account linked")
        | some _ig_account =>
            match env.igContainer with
            | .error e => failDict (.str e)
            | .ok (cstatus, _creation_id) =>
                if cstatus ≠ 200 then failDict env.igContainerErrBody
                else
                  match env.igPublish with
                  | .error e => failDict (.str e)
                  | .ok (pstatus, media_id) =>
                      if pstatus = 200 then
                        [("success", .boolV true), ("platform", .str "instagram"),
                         ("media_id", optVal media_id)]
                      else
                        failDict env.igPublishErrBody

/-- Embedding of `SocialMediaAutomation.post_to_linkedin` (browser
automation).  Also returns the trace of attempted page navigations: with
missing credentials the function returns before a page is even created, so
the trace is empty. -/
def post_to_linkedin (env : SMAEnv) (_content : String)
    (_image_path : Option String) : List Effect × Dict :=
  if !(credOk env.linkedinEmail && credOk env.linkedinPassword) then
    ([], failDict (.str "LinkedIn credentials not set"))
  else
    let t1 := [Effect.navigate "https://www.linkedin.com/login"]
    if !env.liLoginOk then (t1, failDict (.str env.liErr))
    else
      let t2 := t1 ++ [Effect.navigate "https://www.linkedin.com/feed/"]
      if !env.liComposeOk then (t2, failDict (.str env.liErr))
      else
        (t2, [("success", .boolV true), ("platform", .str "linkedin"),
              ("timestamp", .str env.now)])

/-- Embedding of `SocialMediaAutomation.post_to_twitter` (browser
automation). -/
def post_to_twitter (env : SMAEnv) (_content : String)
    (_image_path : Option String) : Dict :=
  if !(credOk env.twitterEmail && credOk env.twitterPassword) then
    failDict (.str "Twitter credentials not set")
  else if !env.twUiOk then failDict (.str env.twErr)
  else
    [("success", .boolV true), ("platform", .str "twitter"),
     ("timestamp", .str env.now)]

/-- Embedding of `SocialMediaAutomation.post_to_medium` (browser automation;
no credential gate in the source). -/
def post_to_medium (env : SMAEnv) (title _content : String)
    (_tags : List String) : Dict :=
  if !env.mdUiOk then failDict (.str env.mdErr)
  else
    [("success", .boolV true), ("platform", .str "medium"),
     ("title", .str title), ("timestamp", .str env.now)]

/-- The per-platform payload dict supplied to `post_to_all_platforms`. -/
abbrev Payload := List (String × PyVal)

/-- `payload.get(k, d)` restricted to string values (the payload fields used
by the orchestrator are strings in the source's callers). -/
def pGetStr (p : Payload) (k d : String) : String :=
  match dget p k with
  | some (PyVal.str s) => s
  | some _ => ""
  | none => d

/-- `payload.get(k)` for an optional string field (image path / url). -/
def pGetOpt (p : Payload) (k : String) : Option String :=
  match dget p k with
  | some (PyVal.str s) => some s
  | _ => none

/-- `payload.get('tags', [])`. -/
def pGetTags (p : Payload) : List String :=
  match dget p "tags" with
  | some (PyVal.listV ts) => ts
  | _ => []

/-- The `content` argument of `post_to_all_platforms`: a request map from
platform name to payload dict (`none` models an absent key). -/
structure Content where
  facebook : Option Payload
  instagram : Option Payload
  linkedin : Option Payload
  twitter : Option Payload
  medium : Option Payload

/-- Python truthiness of `content.get(platform)`: the key is present and its
payload dict is non-empty. -/
def truthy : Option Payload → Bool
  | some p => !p.isEmpty
  | none => false

/-- The `results['facebook'] = ...` step of `post_to_all_platforms`. -/
def fbEntry (env : SMAEnv) (c : Content) : List (String × Dict) :=
  match c.facebook with
  | some p =>
      if !p.isEmpty then
        [("facebook", post_to_facebook env (pGetStr p "message" "")
            (pGetOpt p "image_url"))]
      else []
  | none => []

/-- The `results['instagram'] = ...` step. -/
def igEntry (env : SMAEnv) (c : Content) : List (String × Dict) :=
  match c.instagram with
  | some p =>
      if !p.isEmpty then
        [("instagram", post_to_instagram env (pGetStr p "image_url" "")
            (pGetStr p "caption" ""))]
      else []
  | none => []

/-- The `results['linkedin'] = ...` step (the trace of the call is dropped by
the orchestrator, which only stores the returned dict). -/
def liEntry (env : SMAEnv) (c : Content) : List (String × Dict) :=
  match c.linkedin with
  | some p =>
      if !p.isEmpty then
        [("linkedin", (post_to_linkedin env (pGetStr p "content" "")
            (pGetOpt p "image_path")).2)]
      else []
  | none => []

/-- The `results['twitter'] = ...` step. -/
def twEntry (env : SMAEnv) (c : Content) : List (String × Dict) :=
  match c.twitter with
  | some p =>
      if !p.isEmpty then
        [("twitter", post_to_twitter env (pGetStr p "content" "")
            (pGetOpt p "image_path"))]
      else []
  | none => []

/-- The `results['medium'] = ...` step. -/
def mdEntry (env : SMAEnv) (c : Content) : List (String × Dict) :=
  match c.medium with
  | some p =>
      if !p.isEmpty then
        [("medium", post_to_medium env (pGetStr p "title" "")
            (pGetStr p "content" "") (pGetTags p))]
      else []
  | none => []

/-- Embedding of `SocialMediaAutomation.post_to_all_platforms`: the `results`
dict in its insertion order (facebook, instagram, linkedin, twitter,
medium — each present exactly when its request payload is truthy). -/
def post_to_all_platforms (env : SMAEnv) (c : Content) :
    List (String × Dict) :=
  fbEntry env c ++ igEntry env c ++ liEntry env c ++ twEntry env c ++
    mdEntry env c

/-- The platforms the orchestrator attempts, in its fixed iteration order. -/
def requestedPlatforms (c : Content) : List String :=
  (if truthy c.facebook then ["facebook"] else []) ++
  (if truthy c.instagram then ["instagram"] else []) ++
  (if truthy c.linkedin then ["linkedin"] else []) ++
  (if truthy c.twitter then ["twitter"] else []) ++
  (if truthy c.medium then ["medium"] else [])

/-- A concrete LinkedIn scraping environment with one well-formed profile
container, used to instantiate hypothesis-bearing theorems. -/
def liEnvW : LIEnv :=
  ⟨some "u", some "pw", true, true,
   [⟨Except.ok "Jane", Except.ok "Owner", Except.ok "Kampala",
     Except.ok (some "url")⟩], "t"⟩

/-- The lead the `liEnvW` run extracts. -/
def leadW : Dict :=
  [("name", PyVal.str "Jane"), ("headline", PyVal.str "Owner"),
   ("location", PyVal.str "Kampala"), ("profile_url", PyVal.str "url"),
   ("platform", PyVal.str "linkedin"), ("found_date", PyVal.str "t")]

/-- A fully-provisioned concrete automation environment, used to instantiate
hypothesis-bearing theorems. -/
def smaEnvOk : SMAEnv :=
  ⟨some "tok", some "le", some "lp", some "te", some "tp",
   .ok (200, [("pid", "ptok")]), .ok (200, some "fid"), .noneV,
   .ok [some "ig"], .ok (200, some "cid"), .noneV, .ok (200, some "mid"), .noneV,
   true, true, "e", true, "e", true, "e", "now"⟩

/-- The same environment with the LinkedIn credentials missing. -/
def smaEnvNoLi : SMAEnv :=
  ⟨some "tok", none, none, some "te", some "tp",
   .ok (200, [("pid", "ptok")]), .ok (200, some "fid"), .noneV,
   .ok [some "ig"], .ok (200, some "cid"), .noneV, .ok (200, some "mid"), .noneV,
   true, true, "e", true, "e", true, "e", "now"⟩

theorem insertOrd_perm (le : α → α → Bool) (x : α) (l : List α) :
    List.Perm (insertOrd le x l) (x :: l) := by
  induction l with
  | nil => simp [insertOrd]
  | cons y ys ih =>
      by_cases h : le x y
      · simp [insertOrd, h]
      · simp only [insertOrd, h, if_neg, Bool.not_eq_true]
        exact (ih.cons y).trans (List.Perm.swap x y ys)

theorem insSort_perm (le : α → α → Bool) (l : List α) :
    List.Perm (insSort le l) l := by
  induction l with
  | nil => simp [insSort]
  | cons x xs ih =>
      exact ((insertOrd_perm le x (insSort le xs)).trans (ih.cons x))

theorem mem_insertOrd {le : α → α → Bool} {x z : α} {l : List α} :
    z ∈ insertOrd le x l ↔ z = x ∨ z ∈ l := by
  rw [(insertOrd_perm le x l).mem_iff]
  simp

theorem insertOrd_pairwise (le : α → α → Bool)
    (htrans : ∀ a b c, le a b = true → le b c = true → le a c = true)
    (htot : ∀ a b, le a b = true ∨ le b a = true)
    {x : α} {l : List α}
    (h : l.Pairwise (fun a b => le a b = true)) :
    (insertOrd le x l).Pairwise (fun a b => le a b = true) := by
  induction l with
  | nil => simp [insertOrd]
  | cons y ys ih =>
      rcases List.pairwise_cons.mp h with ⟨hy, hys⟩
      by_cases hxy : le x y
      · simp only [insertOrd, hxy, if_pos]
        refine List.pairwise_cons.mpr ⟨?_, h⟩
        intro z hz
        rcases List.mem_cons.mp hz with rfl | hz
        · exact hxy
        · exact htrans x y z hxy (hy z hz)
      · simp only [insertOrd, hxy, if_neg, Bool.not_eq_true]
        refine List.pairwise_cons.mpr ⟨?_, ih hys⟩
        intro z hz
        rcases mem_insertOrd.mp hz with hzx | hz
        · rcases htot x y with hxy' | hyx
          · exact absurd hxy' hxy
          · rw [hzx]; exact hyx
        · exact hy z hz

theorem insSort_pairwise (le : α → α → Bool)
    (htrans : ∀ a b c, le a b = true → le b c = true → le a c = true)
    (htot : ∀ a b, le a b = true ∨ le b a = true) (l : List α) :
    (insSort le l).Pairwise (fun a b => le a b = true) := by
  induction l with
  | nil => simp [insSort]
  | cons x xs ih => exact insertOrd_pairwise le htrans htot ih

theorem insertOrd_filter_key {β : Type} [DecidableEq β]
    (le : α → α → Bool) (key : α → β)
    (hties : ∀ a b, key a = key b → le a b = true)
    (x : α) (l : List α) (s : β) :
    (insertOrd le x l).filter (fun z => decide (key z = s)) =
      if key x = s then x :: l.filter (fun z => decide (key z = s))
      else l.filter (fun z => decide (key z = s)) := by
  induction l with
  | nil =>
      by_cases hx : key x = s <;> simp [insertOrd, List.filter, hx]
  | cons y ys ih =>
      by_cases hxy : le x y
      · by_cases hx : key x = s <;> simp [insertOrd, hxy, List.filter_cons, hx]
      · simp only [insertOrd, hxy, if_neg, Bool.not_eq_true]
        by_cases hy : key y = s
        · by_cases hx : key x = s
          · exact absurd (hties x y (hx.trans hy.symm)) hxy
          · simp [List.filter_cons, hy, hx, ih]
        · simp [List.filter_cons, hy, ih]

theorem insSort_filter_key {β : Type} [DecidableEq β]
    (le : α → α → Bool) (key : α → β)
    (hties : ∀ a b, key a = key b → le a b = true)
    (l : List α) (s : β) :
    (insSort le l).filter (fun z => decide (key z = s)) =
      l.filter (fun z => decide (key z = s)) := by
  induction l with
  | nil => simp [insSort]
  | cons x xs ih =>
      rw [insSort, insertOrd_filter_key le key hties, ih]
      by_cases hx : key x = s <;> simp [List.filter_cons, hx]

theorem default_template_raw :
    String.join (default_template.map tItemRaw) =
      "Hi {name},\n\nI noticed your profile and thought you might be interested in our AI chatbot services. \n\nWe help businesses like yours:\n- Automate customer support 24/7\n- Increase response time by 90%\n- Reduce support costs by 60%\n\nWould you be open to a quick 15-minute call to see how we can help your business?\n\nBest regards,\nYour Name" := rfl

theorem linkedin_template_raw :
    String.join (linkedin_template.map tItemRaw) =
      "Hi {name},\n\nI came across your profile and was impressed by your role as {headline}.\n\nI specialize in building AI-powered chatbots that help businesses automate customer service and lead generation. Given your experience in {headline}, I thought this might be valuable for you or your network.\n\nWould you be interested in learning more?\n\nBest,\nYour Name" := rfl

theorem twitter_template_raw :
    String.join (twitter_template.map tItemRaw) =
      "Hi {handle},\n\nSaw your tweet about {topic}. We" ++ apos ++ "ve helped similar businesses automate their customer service with AI chatbots.\n\nWould love to show you how it works. DM me if interested! 🤖" := rfl

theorem cold_email_template_raw :
    String.join (cold_email_template.map tItemRaw) =
      "Subject: Automate Your Customer Service with AI\n\nHi {name},\n\nI help businesses automate repetitive customer inquiries using AI chatbots. Here" ++ apos ++ "s what we can do for you:\n\n✅ 24/7 instant responses\n✅ Handle 1000+ conversations simultaneously  \n✅ Integrate with WhatsApp, Facebook, Instagram\n✅ Reduce support costs by 60%\n\nInterested in a free demo?\n\nReply if you" ++ apos ++ "d like to see it in action!\n\nBest regards,\nYour Name\n" := rfl

theorem default_template_lits : litsBraceFree default_template = true := by decide

theorem linkedin_template_lits : litsBraceFree linkedin_template = true := by decide

theorem twitter_template_lits : litsBraceFree twitter_template = true := by decide

theorem cold_email_template_lits : litsBraceFree cold_email_template = true := by decide

/-! ### Helper lemmas about the embedded operations -/

theorem length_filterMap_of_isSome {f : α → Option β} {l : List α}
    (h : ∀ x ∈ l, (f x).isSome = true) :
    (l.filterMap f).length = l.length := by
  induction l with
  | nil => simp
  | cons x xs ih =>
      rcases Option.isSome_iff_exists.mp (h x (List.mem_cons_self x xs)) with ⟨b, hb⟩
      rw [List.filterMap_cons, hb]
      simp only [List.length_cons]
      rw [ih (fun y hy => h y (List.mem_cons_of_mem x hy))]

theorem filterMap_append_middle {f : α → Option β} (l1 l2 : List α) {bad : α}
    (hbad : f bad = none) :
    (l1 ++ bad :: l2).filterMap f = l1.filterMap f ++ l2.filterMap f := by
  rw [List.filterMap_append, List.filterMap_cons, hbad]

theorem dget_dictSet_self (l : Dict) (k : String) (v : PyVal) :
    dget (dictSet l k v) k = some v := by
  induction l with
  | nil => simp [dictSet, dget, List.find?]
  | cons kv rest ih =>
      by_cases h : kv.1 = k
      · simp [dictSet, h, dget, List.find?]
      · simpa [dictSet, h, dget, List.find?] using ih

theorem dget_dictSet_ne (l : Dict) {k k' : String} (v : PyVal) (h : k' ≠ k) :
    dget (dictSet l k v) k' = dget l k' := by
  induction l with
  | nil => simp [dictSet, dget, List.find?, Ne.symm h]
  | cons kv rest ih =>
      obtain ⟨k0, v0⟩ := kv
      by_cases hk : k0 = k
      · subst hk
        simp [dictSet, dget, List.find?, Ne.symm h]
      · by_cases hk' : k0 = k'
        · simp [dictSet, hk, dget, List.find?, hk', h]
        · simpa [dictSet, hk, dget, List.find?, hk'] using ih

theorem dget_mem {l : Dict} {k : String} {v : PyVal} (h : dget l k = some v) :
    ∃ kv ∈ l, kv.2 = v := by
  unfold dget at h
  rcases Option.map_eq_some'.mp h with ⟨kv, hfind, hv⟩
  exact ⟨kv, List.mem_of_find?_eq_some hfind, hv⟩

theorem scoreOf_setScore (keywords : List String) (l : Dict) :
    scoreOf (setScore keywords l) = matchCount keywords l := by
  unfold scoreOf setScore
  rw [dget_dictSet_self]

theorem processed_filter_eq (leads : List Dict) (keywords : List String) :
    ((leads.map (processLead keywords)).filter (fun q => q.2)).map (fun q => q.1) =
      (leads.filter (fun l => matchesAny keywords l)).map (setScore keywords) := by
  induction leads with
  | nil => simp
  | cons l rest ih =>
      by_cases h : matchesAny keywords l
      · simp [processLead, h, List.filter_cons, ih]
      · simp [processLead, h, List.filter_cons, ih]

theorem stored_eq (leads : List Dict) (keywords : List String) :
    (filter_quality_leads leads keywords).1 =
      leads.map (fun l =>
        if matchesAny keywords l then setScore keywords l else l) := by
  unfold filter_quality_leads
  simp only [List.map_map]
  refine List.map_congr_left ?_
  intro l _
  by_cases h : matchesAny keywords l <;> simp [processLead, h]

theorem braceFree_append (a b : String) :
    braceFree (a ++ b) = (braceFree a && braceFree b) := by
  unfold braceFree
  rw [String.data_append, List.all_append]

theorem braceFree_join {L : List String}
    (h : ∀ s ∈ L, braceFree s = true) : braceFree (String.join L) = true := by
  unfold String.join
  have key : ∀ (acc : String), braceFree acc = true →
      braceFree (L.foldl (fun r s => r ++ s) acc) = true := by
    induction L with
    | nil => intro acc hacc; simpa using hacc
    | cons s rest ih =>
        intro acc hacc
        simp only [List.foldl_cons]
        refine ih (fun t ht => h t (List.mem_cons_of_mem s ht)) (acc ++ s) ?_
        rw [braceFree_append, hacc, h s (List.mem_cons_self s rest)]
        rfl
  exact key "" (by decide)

theorem lookup_append_of_keys_ne {l1 l2 : List (String × Dict)} {k : String}
    (h : ∀ kv ∈ l1, kv.1 ≠ k) :
    List.lookup k (l1 ++ l2) = List.lookup k l2 := by
  induction l1 with
  | nil => rfl
  | cons kv rest ih =>
      obtain ⟨k0, v0⟩ := kv
      have hne : (k == k0) = false := by
        simpa using Ne.symm (h (k0, v0) (List.mem_cons_self _ _))
      simp only [List.cons_append, List.lookup, hne]
      exact ih (fun kv hkv => h kv (List.mem_cons_of_mem _ hkv))

theorem fbEntry_keys (env : SMAEnv) (c : Content) :
    (fbEntry env c).map Prod.fst =
      if truthy c.facebook then ["facebook"] else [] := by
  cases hc : c.facebook with
  | none => simp [fbEntry, hc, truthy]
  | some p => by_cases hp : p.isEmpty <;> simp [fbEntry, hc, truthy, hp]

theorem igEntry_keys (env : SMAEnv) (c : Content) :
    (igEntry env c).map Prod.fst =
      if truthy c.instagram then ["instagram"] else [] := by
  cases hc : c.instagram with
  | none => simp [igEntry, hc, truthy]
  | some p => by_cases hp : p.isEmpty <;> simp [igEntry, hc, truthy, hp]

theorem liEntry_keys (env : SMAEnv) (c : Content) :
    (liEntry env c).map Prod.fst =
      if truthy c.linkedin then ["linkedin"] else [] := by
  cases hc : c.linkedin with
  | none => simp [liEntry, hc, truthy]
  | some p => by_cases hp : p.isEmpty <;> simp [liEntry, hc, truthy, hp]

theorem twEntry_keys (env : SMAEnv) (c : Content) :
    (twEntry env c).map Prod.fst =
      if truthy c.twitter then ["twitter"] else [] := by
  cases hc : c.twitter with
  | none => simp [twEntry, hc, truthy]
  | some p => by_cases hp : p.isEmpty <;> simp [twEntry, hc, truthy, hp]

theorem mdEntry_keys (env : SMAEnv) (c : Content) :
    (mdEntry env c).map Prod.fst =
      if truthy c.medium then ["medium"] else [] := by
  cases hc : c.medium with
  | none => simp [mdEntry, hc, truthy]
  | some p => by_cases hp : p.isEmpty <;> simp [mdEntry, hc, truthy, hp]

theorem key_of_mem_entry {e : List (String × Dict)} {name : String} {b : Bool}
    (hkeys : e.map Prod.fst = (if b then [name] else [])) :
    ∀ kv ∈ e, kv.1 = name := by
  intro kv hkv
  have hmem : kv.1 ∈ e.map Prod.fst := List.mem_map_of_mem Prod.fst hkv
  rw [hkeys] at hmem
  cases b
  · simp at hmem
  · simpa using hmem

theorem lookup_none_of_keys_ne {l : List (String × Dict)} {k : String}
    (h : ∀ kv ∈ l, kv.1 ≠ k) : List.lookup k l = none := by
  simpa using @lookup_append_of_keys_ne _ [] _ h

theorem lookup_facebook_eq (env : SMAEnv) (c : Content) :
    List.lookup "facebook" (post_to_all_platforms env c) =
      (match c.facebook with
       | some p =>
           if !p.isEmpty then
             some (post_to_facebook env (pGetStr p "message" "")
               (pGetOpt p "image_url"))
           else none
       | none => none) := by
  have hig : ∀ kv ∈ igEntry env c, kv.1 ≠ "facebook" := fun kv hkv => by
    rw [key_of_mem_entry (igEntry_keys env c) kv hkv]; decide
  have hli : ∀ kv ∈ liEntry env c, kv.1 ≠ "facebook" := fun kv hkv => by
    rw [key_of_mem_entry (liEntry_keys env c) kv hkv]; decide
  have htw : ∀ kv ∈ twEntry env c, kv.1 ≠ "facebook" := fun kv hkv => by
    rw [key_of_mem_entry (twEntry_keys env c) kv hkv]; decide
  have hmd : ∀ kv ∈ mdEntry env c, kv.1 ≠ "facebook" := fun kv hkv => by
    rw [key_of_mem_entry (mdEntry_keys env c) kv hkv]; decide
  have hrest : List.lookup "facebook"
      (igEntry env c ++ liEntry env c ++ twEntry env c ++ mdEntry env c) = none := by
    rw [List.append_assoc, List.append_assoc,
        lookup_append_of_keys_ne hig, lookup_append_of_keys_ne hli,
        lookup_append_of_keys_ne htw, lookup_none_of_keys_ne hmd]
  unfold post_to_all_platforms
  cases hc : c.facebook with
  | none =>
      rw [show fbEntry env c = [] by simp [fbEntry, hc]]
      simpa using hrest
  | some p =>
      by_cases hp : p.isEmpty
      · rw [show fbEntry env c = [] by simp [fbEntry, hc, hp]]
        simpa [hp] using hrest
      · rw [show fbEntry env c = [("facebook",
            post_to_facebook env (pGetStr p "message" "") (pGetOpt p "image_url"))]
            by simp [fbEntry, hc, hp]]
        simp [List.lookup, hp]

theorem lookup_instagram_eq (env : SMAEnv) (c : Content) :
    List.lookup "instagram" (post_to_all_platforms env c) =
      (match c.instagram with
       | some p =>
           if !p.isEmpty then
             some (post_to_instagram env (pGetStr p "image_url" "")
               (pGetStr p "caption" ""))
           else none
       | none => none) := by
  have hfb : ∀ kv ∈ fbEntry env c, kv.1 ≠ "instagram" := fun kv hkv => by
    rw [key_of_mem_entry (fbEntry_keys env c) kv hkv]; decide
  have hli : ∀ kv ∈ liEntry env c, kv.1 ≠ "instagram" := fun kv hkv => by
    rw [key_of_mem_entry (liEntry_keys env c) kv hkv]; decide
  have htw : ∀ kv ∈ twEntry env c, kv.1 ≠ "instagram" := fun kv hkv => by
    rw [key_of_mem_entry (twEntry_keys env c) kv hkv]; decide
  have hmd : ∀ kv ∈ mdEntry env c, kv.1 ≠ "instagram" := fun kv hkv => by
    rw [key_of_mem_entry (mdEntry_keys env c) kv hkv]; decide
  have hrest : List.lookup "instagram"
      (liEntry env c ++ twEntry env c ++ mdEntry env c) = none := by
    rw [List.append_assoc, lookup_append_of_keys_ne hli,
        lookup_append_of_keys_ne htw, lookup_none_of_keys_ne hmd]
  unfold post_to_all_platforms
  rw [List.append_assoc, List.append_assoc, List.append_assoc,
      lookup_append_of_keys_ne hfb, ← List.append_assoc, ← List.append_assoc]
  cases hc : c.instagram with
  | none =>
      rw [show igEntry env c = [] by simp [igEntry, hc]]
      simpa using hrest
  | some p =>
      by_cases hp : p.isEmpty
      · rw [show igEntry env c = [] by simp [igEntry, hc, hp]]
        simpa [hp] using hrest
      · rw [show igEntry env c = [("instagram",
            post_to_instagram env (pGetStr p "image_url" "") (pGetStr p "caption" ""))]
            by simp [igEntry, hc, hp]]
        simp [List.lookup, hp]

theorem lookup_linkedin_eq (env : SMAEnv) (c : Content) :
    List.lookup "linkedin" (post_to_all_platforms env c) =
      (match c.linkedin with
       | some p =>
           if !p.isEmpty then
             some ((post_to_linkedin env (pGetStr p "content" "")
               (pGetOpt p "image_path")).2)
           else none
       | none => none) := by
  have hfb : ∀ kv ∈ fbEntry env c, kv.1 ≠ "linkedin" := fun kv hkv => by
    rw [key_of_mem_entry (fbEntry_keys env c) kv hkv]; decide
  have hig : ∀ kv ∈ igEntry env c, kv.1 ≠ "linkedin" := fun kv hkv => by
    rw [key_of_mem_entry (igEntry_keys env c) kv hkv]; decide
  have htw : ∀ kv ∈ twEntry env c, kv.1 ≠ "linkedin" := fun kv hkv => by
    rw [key_of_mem_entry (twEntry_keys env c) kv hkv]; decide
  have hmd : ∀ kv ∈ mdEntry env c, kv.1 ≠ "linkedin" := fun kv hkv => by
    rw [key_of_mem_entry (mdEntry_keys env c) kv hkv]; decide
  have hrest : List.lookup "linkedin" (twEntry env c ++ mdEntry env c) = none := by
    rw [lookup_append_of_keys_ne htw, lookup_none_of_keys_ne hmd]
  unfold post_to_all_platforms
  rw [List.append_assoc, List.append_assoc, List.append_assoc,
      lookup_append_of_keys_ne hfb, lookup_append_of_keys_ne hig]
  cases hc : c.linkedin with
  | none =>
      rw [show liEntry env c = [] by simp [liEntry, hc]]
      simpa using hrest
  | some p =>
      by_cases hp : p.isEmpty
      · rw [show liEntry env c = [] by simp [liEntry, hc, hp]]
        simpa [hp] using hrest
      · rw [show liEntry env c = [("linkedin",
            (post_to_linkedin env (pGetStr p "content" "") (pGetOpt p "image_path")).2)]
            by simp [liEntry, hc, hp]]
        simp [List.lookup, hp]

theorem lookup_twitter_eq (env : SMAEnv) (c : Content) :
    List.lookup "twitter" (post_to_all_platforms env c) =
      (match c.twitter with
       | some p =>
           if !p.isEmpty then
             some (post_to_twitter env (pGetStr p "content" "")
               (pGetOpt p "image_path"))
           else none
       | none => none) := by
  have hfb : ∀ kv ∈ fbEntry env c, kv.1 ≠ "twitter" := fun kv hkv => by
    rw [key_of_mem_entry (fbEntry_keys env c) kv hkv]; decide
  have hig : ∀ kv ∈ igEntry env c, kv.1 ≠ "twitter" := fun kv hkv => by
    rw [key_of_mem_entry (igEntry_keys env c) kv hkv]; decide
  have hli : ∀ kv ∈ liEntry env c, kv.1 ≠ "twitter" := fun kv hkv => by
    rw [key_of_mem_entry (liEntry_keys env c) kv hkv]; decide
  have hmd : ∀ kv ∈ mdEntry env c, kv.1 ≠ "twitter" := fun kv hkv => by
    rw [key_of_mem_entry (mdEntry_keys env c) kv hkv]; decide
  unfold post_to_all_platforms
  rw [List.append_assoc, List.append_assoc, List.append_assoc,
      lookup_append_of_keys_ne hfb, lookup_append_of_keys_ne hig,
      lookup_append_of_keys_ne hli]
  cases hc : c.twitter with
  | none =>
      rw [show twEntry env c = [] by simp [twEntry, hc]]
      simpa using lookup_none_of_keys_ne hmd
  | some p =>
      by_cases hp : p.isEmpty
      · rw [show twEntry env c = [] by simp [twEntry, hc, hp]]
        simpa [hp] using lookup_none_of_keys_ne hmd
      · rw [show twEntry env c = [("twitter",
            post_to_twitter env (pGetStr p "content" "") (pGetOpt p "image_path"))]
            by simp [twEntry, hc, hp]]
        simp [List.lookup, hp]

theorem lookup_medium_eq (env : SMAEnv) (c : Content) :
    List.lookup "medium" (post_to_all_platforms env c) =
      (match c.medium with
       | some p =>
           if !p.isEmpty then
             some (post_to_medium env (pGetStr p "title" "")
               (pGetStr p "content" "") (pGetTags p))
           else none
       | none => none) := by
  have hfb : ∀ kv ∈ fbEntry env c, kv.1 ≠ "medium" := fun kv hkv => by
    rw [key_of_mem_entry (fbEntry_keys env c) kv hkv]; decide
  have hig : ∀ kv ∈ igEntry env c, kv.1 ≠ "medium" := fun kv hkv => by
    rw [key_of_mem_entry (igEntry_keys env c) kv hkv]; decide
  have hli : ∀ kv ∈ liEntry env c, kv.1 ≠ "medium" := fun kv hkv => by
    rw [key_of_mem_entry (liEntry_keys env c) kv hkv]; decide
  have htw : ∀ kv ∈ twEntry env c, kv.1 ≠ "medium" := fun kv hkv => by
    rw [key_of_mem_entry (twEntry_keys env c) kv hkv]; decide
  unfold post_to_all_platforms
  rw [List.append_assoc, List.append_assoc, List.append_assoc,
      lookup_append_of_keys_ne hfb, lookup_append_of_keys_ne hig,
      lookup_append_of_keys_ne hli, lookup_append_of_keys_ne htw]
  cases hc : c.medium with
  | none => simp [mdEntry, hc]
  | some p =>
      by_cases hp : p.isEmpty
      · simp [mdEntry, hc, hp]
      · rw [show mdEntry env c = [("medium",
            post_to_medium env (pGetStr p "title" "") (pGetStr p "content" "")
              (pGetTags p))] by simp [mdEntry, hc, hp]]
        simp [List.lookup, hp]

theorem post_to_all_keys (env : SMAEnv) (c : Content) :
    (post_to_all_platforms env c).map Prod.fst = requestedPlatforms c := by
  unfold post_to_all_platforms requestedPlatforms
  rw [List.map_append, List.map_append, List.map_append, List.map_append,
      fbEntry_keys, igEntry_keys, liEntry_keys, twEntry_keys, mdEntry_keys]

theorem dget_cons (k0 : String) (v0 : PyVal) (l : Dict) (k : String) :
    dget ((k0, v0) :: l) k = if k0 = k then some v0 else dget l k := by
  by_cases h : k0 = k <;> simp [dget, List.find?, h]

/-! ### Claim theorems -/

/-- Claim C1, counterexample: an extraction run can return an item whose
identity field is the empty string.  With valid credentials, successful
navigation and a single profile container whose name text is empty, the
LinkedIn scraper returns one lead whose `name` value is `""` — the code
never checks the extracted identity for non-emptiness, so the claim that
every returned item carries a non-empty identity is false. -/
theorem c1_counterexample :
    (scrape_linkedin_leads
        ⟨some "user", some "pw", true, true,
         [⟨Except.ok "", Except.ok "Owner", Except.ok "Kampala",
           Except.ok (some "url")⟩], "t"⟩ "ceo" 50).2 =
      Except.ok [[("name", PyVal.str ""), ("headline", PyVal.str "Owner"),
        ("location", PyVal.str "Kampala"), ("profile_url", PyVal.str "url"),
        ("platform", PyVal.str "linkedin"), ("found_date", PyVal.str "t")]] ∧
    dget [("name", PyVal.str ""), ("headline", PyVal.str "Owner"),
        ("location", PyVal.str "Kampala"), ("profile_url", PyVal.str "url"),
        ("platform", PyVal.str "linkedin"), ("found_date", PyVal.str "t")]
      "name" = some (PyVal.str "") := by
  exact ⟨rfl, rfl⟩

/-- Claim C1 as amended: for every extraction run (LinkedIn and Twitter),
the returned sequence has length at most `maxResults`, and every returned
item carries the `platform` value of its adapter and has an identity
(`name`) field present — though the identity string may be empty, as the
code does not validate extracted text. -/
theorem c1_theorem :
    (∀ env q mr l, (scrape_linkedin_leads env q mr).2 = Except.ok l →
        l.length ≤ mr ∧ ∀ d ∈ l,
          dget d "platform" = some (PyVal.str "linkedin") ∧
          (dget d "name").isSome = true) ∧
    (∀ env h mr l, scrape_twitter_leads env h mr = Except.ok l →
        l.length ≤ mr ∧ ∀ d ∈ l,
          dget d "platform" = some (PyVal.str "twitter") ∧
          (dget d "name").isSome = true) := by
  constructor
  · intro env q mr l hl
    unfold scrape_linkedin_leads at hl
    split_ifs at hl with h1 h2 h3 <;>
      simp only [Prod.snd, Except.ok.injEq] at hl <;> subst hl
    · constructor
      · exact le_trans (List.length_filterMap_le _ _) (List.length_take_le _ _)
      · intro d hd
        rcases List.mem_filterMap.mp hd with ⟨p, _, hp⟩
        unfold extractProfile at hp
        rcases p with ⟨pn, ph, ploc, purl⟩
        cases pn <;> cases ph <;> cases ploc <;> cases purl <;> simp at hp
        subst hp
        exact ⟨rfl, rfl⟩
    · simp
    · simp
    · simp
  · intro env h mr l hl
    unfold scrape_twitter_leads at hl
    split_ifs at hl with h1 <;>
      simp only [Except.ok.injEq] at hl <;> subst hl
    · constructor
      · exact le_trans (List.length_filterMap_le _ _) (List.length_take_le _ _)
      · intro d hd
        rcases List.mem_filterMap.mp hd with ⟨tw, _, htw⟩
        unfold extractTweet at htw
        rcases tw with ⟨tun, ttx⟩
        cases tun <;> cases ttx <;> simp at htw
        subst htw
        exact ⟨rfl, rfl⟩
    · simp

/-- Claim C1 witness: the amended theorem applied to a concrete LinkedIn run
with one well-formed profile. -/
theorem c1_theorem_witness :
    (scrape_linkedin_leads liEnvW "ceo" 5).2 = Except.ok [leadW] ∧
    ([leadW] : List Dict).length ≤ 5 ∧
    dget leadW "platform" = some (PyVal.str "linkedin") := by
  have hrun : (scrape_linkedin_leads liEnvW "ceo" 5).2 = Except.ok [leadW] := rfl
  refine ⟨hrun, (c1_theorem.1 liEnvW "ceo" 5 [leadW] hrun).1, ?_⟩
  exact ((c1_theorem.1 liEnvW "ceo" 5 [leadW] hrun).2 leadW (by simp)).1

/-- Claim C2, confirmed: a container whose field extractor raises is skipped
and extraction continues with the remaining containers — with `n` candidate
containers (within the `maxResults` slice) of which exactly one is
malformed, both scrapers return exactly the `n - 1` successfully mapped
leads, in order. -/
theorem c2_theorem :
    (∀ (now q : String) (e p : Option String) (g1 g2 : List LIProfile)
        (bad : LIProfile) (mr : Nat),
        credOk e = true → credOk p = true →
        (∀ x ∈ g1 ++ g2, (extractProfile now x).isSome = true) →
        extractProfile now bad = none →
        (g1 ++ bad :: g2).length ≤ mr →
        (scrape_linkedin_leads ⟨e, p, true, true, g1 ++ bad :: g2, now⟩ q mr).2 =
          Except.ok (g1.filterMap (extractProfile now) ++
            g2.filterMap (extractProfile now)) ∧
        (g1.filterMap (extractProfile now) ++
          g2.filterMap (extractProfile now)).length =
          (g1 ++ bad :: g2).length - 1) ∧
    (∀ (now h : String) (g1 g2 : List Tweet) (bad : Tweet) (mr : Nat),
        (∀ x ∈ g1 ++ g2, (extractTweet h now x).isSome = true) →
        extractTweet h now bad = none →
        (g1 ++ bad :: g2).length ≤ mr →
        scrape_twitter_leads ⟨true, g1 ++ bad :: g2, now⟩ h mr =
          Except.ok (g1.filterMap (extractTweet h now) ++
            g2.filterMap (extractTweet h now)) ∧
        (g1.filterMap (extractTweet h now) ++
          g2.filterMap (extractTweet h now)).length =
          (g1 ++ bad :: g2).length - 1) := by
  constructor
  · intro now q e p g1 g2 bad mr he hp hgood hbad hlen
    have hg1 : ∀ x ∈ g1, (extractProfile now x).isSome = true := fun x hx =>
      hgood x (List.mem_append_left _ hx)
    have hg2 : ∀ x ∈ g2, (extractProfile now x).isSome = true := fun x hx =>
      hgood x (List.mem_append_right _ hx)
    constructor
    · unfold scrape_linkedin_leads
      simp only [he, hp, Bool.and_self, if_true]
      rw [List.take_of_length_le hlen, filterMap_append_middle _ _ hbad]
    · rw [List.length_append, length_filterMap_of_isSome hg1,
          length_filterMap_of_isSome hg2, List.length_append, List.length_cons]
      omega
  · intro now h g1 g2 bad mr hgood hbad hlen
    have hg1 : ∀ x ∈ g1, (extractTweet h now x).isSome = true := fun x hx =>
      hgood x (List.mem_append_left _ hx)
    have hg2 : ∀ x ∈ g2, (extractTweet h now x).isSome = true := fun x hx =>
      hgood x (List.mem_append_right _ hx)
    constructor
    · unfold scrape_twitter_leads
      simp only [if_true]
      rw [List.take_of_length_le hlen, filterMap_append_middle _ _ hbad]
    · rw [List.length_append, length_filterMap_of_isSome hg1,
          length_filterMap_of_isSome hg2, List.length_append, List.length_cons]
      omega

/-- Claim C2 witness: one malformed container among three on a LinkedIn run
with `maxResults = 50` yields exactly the two well-formed leads. -/
theorem c2_theorem_witness :
    (scrape_linkedin_leads
        ⟨some "u", some "pw", true, true,
         [⟨Except.ok "A", Except.ok "B", Except.ok "C", Except.ok none⟩,
          ⟨Except.error (), Except.ok "B", Except.ok "C", Except.ok none⟩,
          ⟨Except.ok "D", Except.ok "E", Except.ok "F", Except.ok none⟩],
         "t"⟩ "q" 50).2 =
      Except.ok
        [[("name", PyVal.str "A"), ("headline", PyVal.str "B"),
          ("location", PyVal.str "C"), ("profile_url", PyVal.noneV),
          ("platform", PyVal.str "linkedin"), ("found_date", PyVal.str "t")],
         [("name", PyVal.str "D"), ("headline", PyVal.str "E"),
          ("location", PyVal.str "F"), ("profile_url", PyVal.noneV),
          ("platform", PyVal.str "linkedin"), ("found_date", PyVal.str "t")]] ∧
    (2 : Nat) = 3 - 1 := by
  have := (c2_theorem.1 "t" "q" (some "u") (some "pw")
      [⟨Except.ok "A", Except.ok "B", Except.ok "C", Except.ok none⟩]
      [⟨Except.ok "D", Except.ok "E", Except.ok "F", Except.ok none⟩]
      ⟨Except.error (), Except.ok "B", Except.ok "C", Except.ok none⟩ 50
      (by decide) (by decide) (by decide) rfl (by decide)).1
  exact ⟨this, rfl⟩

/-- Claim C3, counterexample: with valid credentials but a failing login
navigation (`loginOk = false`), the LinkedIn scraper does not propagate any
error — the outermost `except Exception` of the source catches the
navigation failure and the call returns normally with `Except.ok []`, the
same value a successful run with zero results produces.  This refutes the
claim that the operation raises exactly when navigation fails. -/
theorem c3_counterexample :
    (scrape_linkedin_leads
        ⟨some "user", some "pw", false, true,
         [⟨Except.ok "A", Except.ok "B", Except.ok "C", Except.ok none⟩],
         "t"⟩ "q" 50).2 = Except.ok [] := rfl

/-- Claim C3 as amended: extraction never raises at all.  Every run returns
normally with the leads gathered before the first failure; a navigation or
page-state failure (modelled by a `false` phase flag) is caught by the
scraper's outermost exception handler and yields the empty list, which is
indistinguishable from a successful run with zero results. -/
theorem c3_theorem :
    (∀ env q mr, ∃ l, (scrape_linkedin_leads env q mr).2 = Except.ok l) ∧
    (∀ env q mr, env.loginOk = false →
        (scrape_linkedin_leads env q mr).2 = Except.ok []) ∧
    (∀ env q mr, env.searchOk = false →
        (scrape_linkedin_leads env q mr).2 = Except.ok []) ∧
    (∀ env h mr, ∃ l, scrape_twitter_leads env h mr = Except.ok l) ∧
    (∀ env h mr, env.navOk = false →
        scrape_twitter_leads env h mr = Except.ok []) := by
  refine ⟨?_, ?_, ?_, ?_, ?_⟩
  · intro env q mr
    unfold scrape_linkedin_leads
    split_ifs <;> exact ⟨_, rfl⟩
  · intro env q mr hnav
    unfold scrape_linkedin_leads
    split_ifs with h1 h2 <;> first | rfl | (rw [h2] at hnav; cases hnav)
  · intro env q mr hnav
    unfold scrape_linkedin_leads
    split_ifs with h1 h2 h3 <;> first | rfl | (rw [h3] at hnav; cases hnav)
  · intro env h mr
    unfold scrape_twitter_leads
    split_ifs <;> exact ⟨_, rfl⟩
  · intro env h mr hnav
    unfold scrape_twitter_leads
    split_ifs with h1 <;> first | rfl | (rw [h1] at hnav; cases hnav)

/-- Claim C3 witness: the amended theorem applied to a concrete run whose
search navigation fails. -/
theorem c3_theorem_witness :
    (scrape_linkedin_leads
        ⟨some "u", some "pw", true, false, [], "t"⟩ "q" 10).2 =
      Except.ok [] ∧
    scrape_twitter_leads ⟨false, [], "t"⟩ "tag" 10 = Except.ok [] := by
  exact ⟨c3_theorem.2.2.1 ⟨some "u", some "pw", true, false, [], "t"⟩ "q" 10 rfl,
         c3_theorem.2.2.2.2 ⟨false, [], "t"⟩ "tag" 10 rfl⟩

/-- Claim C8, counterexample: with LinkedIn credentials missing, the lead
scraper signals no `AuthenticationError` at all — it returns the ordinary
empty-success value `Except.ok []`, indistinguishable from a successful run
with zero results, so the claim that `authenticate` returns or raises an
`AuthenticationError` is false for the scraping adapter. -/
theorem c8_counterexample :
    (scrape_linkedin_leads
        ⟨none, none, true, true,
         [⟨Except.ok "A", Except.ok "B", Except.ok "C", Except.ok none⟩],
         "t"⟩ "q" 50).2 = Except.ok [] := rfl

/-- Claim C8 as amended: when the required credentials are missing, the run
for that platform terminates before any page navigation is attempted (the
effect trace is empty).  The posting adapter surfaces the failure as a
`success = False` result naming the missing credentials; the scraping
adapter merely returns an empty lead list with no error indication. -/
theorem c8_theorem :
    (∀ env q mr, (credOk env.email = false ∨ credOk env.password = false) →
        (scrape_linkedin_leads env q mr).1 = [] ∧
        (scrape_linkedin_leads env q mr).2 = Except.ok []) ∧
    (∀ env c ip,
        (credOk env.linkedinEmail = false ∨ credOk env.linkedinPassword = false) →
        (post_to_linkedin env c ip).1 = [] ∧
        (post_to_linkedin env c ip).2 =
          failDict (PyVal.str "LinkedIn credentials not set")) := by
  constructor
  · intro env q mr hcred
    have hand : (credOk env.email && credOk env.password) = false := by
      rcases hcred with h | h <;> simp [h]
    unfold scrape_linkedin_leads
    rw [hand]
    exact ⟨rfl, rfl⟩
  · intro env c ip hcred
    have hand : (credOk env.linkedinEmail && credOk env.linkedinPassword) = false := by
      rcases hcred with h | h <;> simp [h]
    unfold post_to_linkedin
    rw [hand]
    exact ⟨rfl, rfl⟩

/-- Claim C8 witness: the amended theorem applied to a scraping run and a
posting call with missing LinkedIn credentials. -/
theorem c8_theorem_witness :
    ((scrape_linkedin_leads ⟨none, none, true, true, [], "t"⟩ "q" 5).1 = [] ∧
     (scrape_linkedin_leads ⟨none, none, true, true, [], "t"⟩ "q" 5).2 =
       Except.ok []) ∧
    ((post_to_linkedin smaEnvNoLi "hello" none).1 = [] ∧
     (post_to_linkedin smaEnvNoLi "hello" none).2 =
       failDict (PyVal.str "LinkedIn credentials not set")) := by
  exact ⟨c8_theorem.1 ⟨none, none, true, true, [], "t"⟩ "q" 5 (Or.inl rfl),
         c8_theorem.2 smaEnvNoLi "hello" none (Or.inl rfl)⟩

/-- Claim C4, counterexample: a request map that requests the Twitter
platform with an empty payload dict produces no entry at all — `post_to_all
_platforms` skips any requested platform whose payload is falsy, so the
result does not contain one entry per requested platform. -/
theorem c4_counterexample :
    post_to_all_platforms smaEnvOk ⟨none, none, none, some [], none⟩ = [] := rfl

/-- Claim C4 as amended: the result map contains exactly one entry per
requested platform whose payload is non-empty (in the orchestrator's fixed
facebook, instagram, linkedin, twitter, medium order), a platform requested
with an empty payload contributes no entry, and platforms are processed
independently: each platform's entry equals its own adapter applied to its
own payload fields, and the Twitter entry depends only on the Twitter
payload and the Twitter-relevant environment, so no other platform's failure
can prevent or alter it. -/
theorem c4_theorem :
    (∀ env c, (post_to_all_platforms env c).map Prod.fst = requestedPlatforms c) ∧
    (∀ env c, List.lookup "facebook" (post_to_all_platforms env c) =
      (match c.facebook with
       | some p =>
           if !p.isEmpty then
             some (post_to_facebook env (pGetStr p "message" "")
               (pGetOpt p "image_url"))
           else none
       | none => none)) ∧
    (∀ env c, List.lookup "instagram" (post_to_all_platforms env c) =
      (match c.instagram with
       | some p =>
           if !p.isEmpty then
             some (post_to_instagram env (pGetStr p "image_url" "")
               (pGetStr p "caption" ""))
           else none
       | none => none)) ∧
    (∀ env c, List.lookup "linkedin" (post_to_all_platforms env c) =
      (match c.linkedin with
       | some p =>
           if !p.isEmpty then
             some ((post_to_linkedin env (pGetStr p "content" "")
               (pGetOpt p "image_path")).2)
           else none
       | none => none)) ∧
    (∀ env c, List.lookup "twitter" (post_to_all_platforms env c) =
      (match c.twitter with
       | some p =>
           if !p.isEmpty then
             some (post_to_twitter env (pGetStr p "content" "")
               (pGetOpt p "image_path"))
           else none
       | none => none)) ∧
    (∀ env c, List.lookup "medium" (post_to_all_platforms env c) =
      (match c.medium with
       | some p =>
           if !p.isEmpty then
             some (post_to_medium env (pGetStr p "title" "")
               (pGetStr p "content" "") (pGetTags p))
           else none
       | none => none)) ∧
    (∀ env1 env2 c1 c2, c1.twitter = c2.twitter →
        env1.twitterEmail = env2.twitterEmail →
        env1.twitterPassword = env2.twitterPassword →
        env1.twUiOk = env2.twUiOk → env1.twErr = env2.twErr →
        env1.now = env2.now →
        List.lookup "twitter" (post_to_all_platforms env1 c1) =
          List.lookup "twitter" (post_to_all_platforms env2 c2)) := by
  refine ⟨post_to_all_keys, lookup_facebook_eq, lookup_instagram_eq,
    lookup_linkedin_eq, lookup_twitter_eq, lookup_medium_eq, ?_⟩
  intro env1 env2 c1 c2 hc he hp hui herr hnow
  rw [lookup_twitter_eq, lookup_twitter_eq, hc]
  have hpost : ∀ x y, post_to_twitter env1 x y = post_to_twitter env2 x y := by
    intro x y
    unfold post_to_twitter
    rw [he, hp, hui, herr, hnow]
  cases c2.twitter with
  | none => rfl
  | some p =>
      by_cases hne : p.isEmpty <;> simp [hne, hpost]

/-- Claim C4 witness: the amended theorem applied to a request map that
requests Twitter with a valid payload and Instagram with a malformed one
(the Meta token is present but the container call fails): both entries are
present and Twitter's success is unaffected. -/
theorem c4_theorem_witness :
    (post_to_all_platforms smaEnvOk
        ⟨none, some [("caption", PyVal.str "x")], none,
         some [("content", PyVal.str "hello")], none⟩).map Prod.fst =
      requestedPlatforms
        ⟨none, some [("caption", PyVal.str "x")], none,
         some [("content", PyVal.str "hello")], none⟩ ∧
    List.lookup "twitter"
        (post_to_all_platforms smaEnvOk
          ⟨none, some [("caption", PyVal.str "x")], none,
           some [("content", PyVal.str "hello")], none⟩) =
      List.lookup "twitter"
        (post_to_all_platforms smaEnvOk
          ⟨none, some [("caption", PyVal.str "x")], none,
           some [("content", PyVal.str "hello")], none⟩) := by
  exact ⟨c4_theorem.1 smaEnvOk _,
         c4_theorem.2.2.2.2.2.2 smaEnvOk smaEnvOk _ _ rfl rfl rfl rfl rfl rfl⟩

/-- Claim C5, counterexample: with the duplicate keyword list
`['ai', 'ai']` and a lead whose text contains `ai`, the code assigns
`match_score = 2` (the `sum` counts each list entry), while the count of
distinct matching keywords is `1` — so `matchScore` is not the count of
distinct matching keywords. -/
theorem c5_counterexample :
    (filter_quality_leads [[("name", PyVal.str "ai")]] ["ai", "ai"]).2 =
      [[("name", PyVal.str "ai"), ("match_score", PyVal.intV 2)]] ∧
    ((["ai", "ai"].filter (kwHit [("name", PyVal.str "ai")])).dedup).length = 1 := by
  exact ⟨rfl, rfl⟩

/-- Claim C5 as amended: `filter_quality_leads` returns (up to the final
sort, a permutation) exactly the stored leads whose concatenated, lowercased
attribute text contains at least one keyword as a case-insensitive
substring, each with `match_score` set; the score equals the number of
entries of the keyword list that match, counted with multiplicity — which
equals the count of distinct matching keywords whenever the keyword list is
duplicate-free. -/
theorem c5_theorem :
    ∀ (leads : List Dict) (kws : List String),
    List.Perm ((filter_quality_leads leads kws).2)
      ((leads.filter (fun l => matchesAny kws l)).map (setScore kws)) ∧
    (∀ l0 : Dict, dget (setScore kws l0) "match_score" =
        some (PyVal.intV (matchCount kws l0))) ∧
    (kws.Nodup → ∀ l0 : Dict,
        matchCount kws l0 = ((kws.filter (kwHit l0)).dedup).length) := by
  intro leads kws
  refine ⟨?_, ?_, ?_⟩
  · have hfq : (filter_quality_leads leads kws).2 =
        insSort (fun a b => decide (scoreOf b ≤ scoreOf a))
          (((leads.map (processLead kws)).filter (fun q => q.2)).map
            (fun q => q.1)) := rfl
    rw [hfq, processed_filter_eq]
    exact insSort_perm _ _
  · intro l0
    unfold setScore
    exact dget_dictSet_self _ _ _
  · intro hnd l0
    unfold matchCount
    rw [List.countP_eq_length_filter, List.dedup_eq_self.mpr (hnd.filter _)]

/-- Claim C5 witness: the amended theorem applied to a concrete lead and the
duplicate-free keyword list `['ai']`. -/
theorem c5_theorem_witness :
    List.Perm ((filter_quality_leads [[("name", PyVal.str "ai")]] ["ai"]).2)
      (([[("name", PyVal.str "ai")]].filter
          (fun l => matchesAny ["ai"] l)).map (setScore ["ai"])) ∧
    (["ai"] : List String).Nodup ∧
    matchCount ["ai"] [("name", PyVal.str "ai")] =
      (((["ai"] : List String).filter
          (kwHit [("name", PyVal.str "ai")])).dedup).length := by
  exact ⟨(c5_theorem [[("name", PyVal.str "ai")]] ["ai"]).1, by decide,
         (c5_theorem [[("name", PyVal.str "ai")]] ["ai"]).2.2 (by decide) _⟩

/-- Claim C6, confirmed: the list `filter_quality_leads` returns is ordered
by `match_score` descending (each element's score is at least the next
one's), and the sort is stable — for every score value, the sublist of
returned leads with that score equals, in order, the sublist of matching
leads in stored order with that score, so ties retain their relative input
order. -/
theorem c6_theorem :
    ∀ (leads : List Dict) (kws : List String),
    ((filter_quality_leads leads kws).2).Pairwise
      (fun a b => scoreOf b ≤ scoreOf a) ∧
    (∀ s : Nat, ((filter_quality_leads leads kws).2).filter
        (fun l => decide (scoreOf l = s)) =
      ((leads.filter (fun l => matchesAny kws l)).map (setScore kws)).filter
        (fun l => decide (scoreOf l = s))) := by
  intro leads kws
  constructor
  · have hp := insSort_pairwise (fun a b => decide (scoreOf b ≤ scoreOf a))
      (fun a b c hab hbc => by
        simp only [decide_eq_true_eq] at hab hbc ⊢
        exact le_trans hbc hab)
      (fun a b => by
        rcases Nat.le_total (scoreOf b) (scoreOf a) with h | h
        · exact Or.inl (decide_eq_true h)
        · exact Or.inr (decide_eq_true h))
      (((leads.map (processLead kws)).filter (fun q => q.2)).map (fun q => q.1))
    have hfq : (filter_quality_leads leads kws).2 =
        insSort (fun a b => decide (scoreOf b ≤ scoreOf a))
          (((leads.map (processLead kws)).filter (fun q => q.2)).map
            (fun q => q.1)) := rfl
    rw [hfq]
    refine List.Pairwise.imp ?_ hp
    intro a b hab
    simpa using hab
  · intro s
    have hfq : (filter_quality_leads leads kws).2 =
        insSort (fun a b => decide (scoreOf b ≤ scoreOf a))
          (((leads.map (processLead kws)).filter (fun q => q.2)).map
            (fun q => q.1)) := rfl
    rw [hfq, processed_filter_eq]
    exact insSort_filter_key (fun a b => decide (scoreOf b ≤ scoreOf a))
      scoreOf (fun a b hab => by simp [hab])
      ((leads.filter (fun l => matchesAny kws l)).map (setScore kws)) s

theorem save_spec (leads : List Dict) (h : leads.isEmpty = false) :
    save_leads_to_csv leads = some
      (sortStrings (List.dedup (leads.flatMap (fun l => l.map (fun kv => kv.1)))),
       leads.map (fun l =>
         (sortStrings (List.dedup
             (leads.flatMap (fun l => l.map (fun kv => kv.1))))).map
           (fun k => csvCell (dget l k)))) := by
  unfold save_leads_to_csv
  rw [h]
  simp

theorem lexLe_trans :
    ∀ as bs cs, lexLe as bs = true → lexLe bs cs = true → lexLe as cs = true := by
  intro as
  induction as with
  | nil => intro bs cs _ _; rfl
  | cons a as ih =>
      intro bs cs hab hbc
      cases bs with
      | nil => simp [lexLe] at hab
      | cons b bs =>
          cases cs with
          | nil => simp [lexLe] at hbc
          | cons c cs =>
              simp only [lexLe] at hab hbc ⊢
              by_cases h1 : a.toNat < b.toNat
              · by_cases h2 : b.toNat < c.toNat
                · simp [Nat.lt_trans h1 h2]
                · simp only [h2, if_false] at hbc
                  by_cases h3 : c.toNat < b.toNat
                  · simp [h3] at hbc
                  · have : a.toNat < c.toNat := by omega
                    simp [this]
              · simp only [h1, if_false] at hab
                by_cases h1' : b.toNat < a.toNat
                · simp [h1'] at hab
                · simp only [h1', if_false] at hab
                  by_cases h2 : b.toNat < c.toNat
                  · have : a.toNat < c.toNat := by omega
                    simp [this]
                  · simp only [h2, if_false] at hbc
                    by_cases h3 : c.toNat < b.toNat
                    · simp [h3] at hbc
                    · simp only [h3, if_false] at hbc
                      have ha : ¬a.toNat < c.toNat := by omega
                      have hc : ¬c.toNat < a.toNat := by omega
                      simp [ha, hc]
                      exact ih bs cs hab hbc

theorem lexLe_total : ∀ as bs, lexLe as bs = true ∨ lexLe bs as = true := by
  intro as
  induction as with
  | nil => intro bs; exact Or.inl rfl
  | cons a as ih =>
      intro bs
      cases bs with
      | nil => exact Or.inr rfl
      | cons b bs =>
          simp only [lexLe]
          by_cases h1 : a.toNat < b.toNat
          · simp [h1]
          · by_cases h2 : b.toNat < a.toNat
            · simp [h1, h2]
            · simpa [h1, h2] using ih bs

theorem strLeB_trans :
    ∀ a b c, strLeB a b = true → strLeB b c = true → strLeB a c = true :=
  fun a b c hab hbc => lexLe_trans a.toList b.toList c.toList hab hbc

theorem strLeB_total : ∀ a b, strLeB a b = true ∨ strLeB b a = true :=
  fun a b => lexLe_total a.toList b.toList

/-- Claim C7, confirmed: for every non-empty batch, `save_leads_to_csv`
writes one row per lead, and the header is exactly the union of the
attribute keys seen across the batch — a key is a column if and only if some
lead carries it — with no duplicates and in ascending lexicographic order. -/
theorem c7_theorem :
    ∀ leads : List Dict, leads ≠ [] →
    ∃ header rows, save_leads_to_csv leads = some (header, rows) ∧
      rows.length = leads.length ∧
      (∀ k, k ∈ header ↔ ∃ l ∈ leads, ∃ kv ∈ l, kv.1 = k) ∧
      header.Pairwise (fun a b => strLeB a b = true) ∧
      header.Nodup := by
  intro leads hne
  have hempty : leads.isEmpty = false := by
    cases leads with
    | nil => exact absurd rfl hne
    | cons a t => rfl
  refine ⟨_, _, save_spec leads hempty, ?_, ?_, ?_, ?_⟩
  · rw [List.length_map]
  · intro k
    unfold sortStrings
    rw [(insSort_perm strLeB _).mem_iff, List.mem_dedup, List.mem_flatMap]
    simp [List.mem_map]
  · exact insSort_pairwise strLeB strLeB_trans strLeB_total
      (List.dedup (leads.flatMap (fun l => l.map (fun kv => kv.1))))
  · unfold sortStrings
    exact ((insSort_perm strLeB _).nodup_iff).mpr (List.nodup_dedup _)

/-- Claim C7 witness: the theorem applied to a concrete two-key batch,
together with the concrete evaluation of the writer. -/
theorem c7_theorem_witness :
    save_leads_to_csv [[("b", PyVal.str "1"), ("a", PyVal.str "2")]] =
      some (["a", "b"], [["2", "1"]]) ∧
    ([[("b", PyVal.str "1"), ("a", PyVal.str "2")]] : List Dict) ≠ [] ∧
    (∃ header rows,
      save_leads_to_csv [[("b", PyVal.str "1"), ("a", PyVal.str "2")]] =
        some (header, rows) ∧
      rows.length = ([[("b", PyVal.str "1"), ("a", PyVal.str "2")]] : List Dict).length ∧
      (∀ k, k ∈ header ↔
        ∃ l ∈ ([[("b", PyVal.str "1"), ("a", PyVal.str "2")]] : List Dict),
          ∃ kv ∈ l, kv.1 = k) ∧
      header.Pairwise (fun a b => strLeB a b = true) ∧
      header.Nodup) := by
  refine ⟨by decide, by decide, c7_theorem _ (by decide)⟩

/-- Claim C10, confirmed: `filter_quality_leads` keeps the stored lead list
at the same length and order — each stored entry is either unchanged
(non-matching leads are not removed) or the original lead with only its
`match_score` key set, every other key's value being preserved — and a
subsequent `save_leads_to_csv` on the stored list writes one row for every
scraped lead, not only for the filtered ones. -/
theorem c10_theorem :
    ∀ (leads : List Dict) (kws : List String),
    ((filter_quality_leads leads kws).1).length = leads.length ∧
    (filter_quality_leads leads kws).1 =
      leads.map (fun l => if matchesAny kws l then setScore kws l else l) ∧
    (∀ l ∈ leads, matchesAny kws l = false →
        l ∈ (filter_quality_leads leads kws).1) ∧
    (∀ (l : Dict) (k : String), k ≠ "match_score" →
        dget (setScore kws l) k = dget l k) ∧
    (leads ≠ [] →
        ∃ header rows,
          save_leads_to_csv ((filter_quality_leads leads kws).1) =
            some (header, rows) ∧ rows.length = leads.length) := by
  intro leads kws
  have hs := stored_eq leads kws
  have hlen : ((filter_quality_leads leads kws).1).length = leads.length := by
    rw [hs, List.length_map]
  refine ⟨hlen, hs, ?_, ?_, ?_⟩
  · intro l hl hm
    rw [hs]
    exact List.mem_map.mpr ⟨l, hl, by simp [hm]⟩
  · intro l k hk
    unfold setScore
    exact dget_dictSet_ne _ _ hk
  · intro hne
    have hne' : ((filter_quality_leads leads kws).1).isEmpty = false := by
      cases h : (filter_quality_leads leads kws).1 with
      | nil =>
          rw [h] at hlen
          cases leads with
          | nil => exact absurd rfl hne
          | cons a t => simp at hlen
      | cons a t => rfl
    exact ⟨_, _, save_spec _ hne', by rw [List.length_map, hlen]⟩

/-- Claim C10 witness: a concrete store with one matching and one
non-matching lead — both remain stored and both are written to the CSV. -/
theorem c10_theorem_witness :
    ((filter_quality_leads
        [[("name", PyVal.str "ai shop")], [("name", PyVal.str "bakery")]]
        ["ai"]).1).length = 2 ∧
    [("name", PyVal.str "bakery")] ∈
      (filter_quality_leads
        [[("name", PyVal.str "ai shop")], [("name", PyVal.str "bakery")]]
        ["ai"]).1 ∧
    (∃ header rows,
      save_leads_to_csv ((filter_quality_leads
        [[("name", PyVal.str "ai shop")], [("name", PyVal.str "bakery")]]
        ["ai"]).1) = some (header, rows) ∧ rows.length = 2) := by
  refine ⟨(c10_theorem _ ["ai"]).1, ?_, (c10_theorem _ ["ai"]).2.2.2.2 (by decide)⟩
  exact (c10_theorem _ ["ai"]).2.2.1 [("name", PyVal.str "bakery")] (by decide)
    (by decide)

theorem braceFree_getStrD {lead : Dict}
    (h : ∀ kv ∈ lead, braceFree (pyStr kv.2) = true)
    {k d : String} (hd : braceFree d = true) :
    braceFree (getStrD lead k d) = true := by
  unfold getStrD
  cases hv : dget lead k with
  | none => exact hd
  | some v =>
      rcases dget_mem hv with ⟨kv, hkv, hv2⟩
      rw [← hv2]
      exact h kv hkv

theorem braceFree_render {t : List TItem} (ht : litsBraceFree t = true)
    {nm hl hd tp : String} (hnm : braceFree nm = true)
    (hhl : braceFree hl = true) (hhd : braceFree hd = true)
    (htp : braceFree tp = true) :
    braceFree (String.join (t.map (tSubst nm hl hd tp))) = true := by
  apply braceFree_join
  intro s hs
  rcases List.mem_map.mp hs with ⟨item, hitem, rfl⟩
  cases item with
  | lit s' => exact List.all_eq_true.mp ht _ hitem
  | nameP => exact hnm
  | headlineP => exact hhl
  | handleP => exact hhd
  | topicP => exact htp

/-- Claim C9, confirmed: `generate_outreach_message` is total and renders
for every lead and template name.  An unknown template name falls back to
the default template; a lead with no `name` key renders exactly as if its
name were the documented fallback `"there"`; and when no attribute value
contains a brace character, the rendered output contains no brace character
at all — every placeholder token of the template has been substituted. -/
theorem c9_theorem :
    ∀ (lead : Dict) (tname : String),
    (tname ∉ (["default", "linkedin", "twitter", "cold_email"] : List String) →
        generate_outreach_message lead tname =
          generate_outreach_message lead "default") ∧
    (dget lead "name" = none →
        generate_outreach_message lead tname =
          generate_outreach_message (("name", PyVal.str "there") :: lead) tname) ∧
    ((∀ kv ∈ lead, braceFree (pyStr kv.2) = true) →
        braceFree (generate_outreach_message lead tname) = true) := by
  intro lead tname
  refine ⟨?_, ?_, ?_⟩
  · intro hmem
    have h1 : tname ≠ "default" := fun e => hmem (by rw [e]; simp)
    have h2 : tname ≠ "linkedin" := fun e => hmem (by rw [e]; simp)
    have h3 : tname ≠ "twitter" := fun e => hmem (by rw [e]; simp)
    have h4 : tname ≠ "cold_email" := fun e => hmem (by rw [e]; simp)
    simp only [generate_outreach_message]
    rw [show templatesGet tname = default_template by
          simp [templatesGet, h1, h2, h3, h4],
        show templatesGet "default" = default_template from rfl]
  · intro hname
    simp only [generate_outreach_message]
    have e1 : getStrD lead "name" "there" = "there" := by
      unfold getStrD; rw [hname]
    have e1' : getStrD (("name", PyVal.str "there") :: lead) "name" "there" =
        "there" := by
      unfold getStrD; rw [dget_cons]; simp [pyStr]
    have e2 : ∀ k d, "name" ≠ k →
        getStrD (("name", PyVal.str "there") :: lead) k d = getStrD lead k d := by
      intro k d hk
      unfold getStrD
      rw [dget_cons, if_neg hk]
    rw [e1, e1', e2 "headline" "your field" (by decide),
        e2 "handle" "there" (by decide),
        e2 "hashtag" "business automation" (by decide)]
  · intro hvals
    simp only [generate_outreach_message]
    have hn : braceFree (getStrD lead "name" "there") = true :=
      braceFree_getStrD hvals (by decide)
    have hh : braceFree (getStrD lead "headline" "your field") = true :=
      braceFree_getStrD hvals (by decide)
    have hhd : braceFree (getStrD lead "handle"
        (getStrD lead "name" "there")) = true :=
      braceFree_getStrD hvals hn
    have htp : braceFree (getStrD lead "hashtag" "business automation") = true :=
      braceFree_getStrD hvals (by decide)
    have hlits : litsBraceFree (templatesGet tname) = true := by
      unfold templatesGet
      split_ifs
      · exact default_template_lits
      · exact linkedin_template_lits
      · exact twitter_template_lits
      · exact cold_email_template_lits
      · exact default_template_lits
    exact braceFree_render hlits hn hh hhd htp

/-- Claim C9 witness: a concrete lead with no `name` attribute and no brace
in its values, rendered with an unknown template name and with the default
template. -/
theorem c9_theorem_witness :
    ("bogus" ∉ (["default", "linkedin", "twitter", "cold_email"] : List String)) ∧
    generate_outreach_message [("city", PyVal.str "K")] "bogus" =
      generate_outreach_message [("city", PyVal.str "K")] "default" ∧
    dget [("city", PyVal.str "K")] "name" = none ∧
    generate_outreach_message [("city", PyVal.str "K")] "default" =
      generate_outreach_message
        [("name", PyVal.str "there"), ("city", PyVal.str "K")] "default" ∧
    braceFree (generate_outreach_message [("city", PyVal.str "K")] "default") =
      true := by
  refine ⟨by decide, (c9_theorem [("city", PyVal.str "K")] "bogus").1 (by decide),
    rfl, (c9_theorem [("city", PyVal.str "K")] "default").2.1 rfl,
    (c9_theorem [("city", PyVal.str "K")] "default").2.2 ?_⟩
  intro kv hkv
  rcases List.mem_singleton.mp hkv with rfl
  decide
